import Mathlib

/-
Verification development for the HLA database setup script
(setup_hla_database.py).  The script downloads a FASTA file to a
platform-dependent cache directory, records its location in a JSON
config file, and later reads that record back.

The embedding models the filesystem as an association list from path
strings to file contents, the network as an oracle describing the
outcome of the single HTTP GET the script performs, and process
termination as an explicit outcome value.
-/

set_option autoImplicit false

namespace HlaSetup

/-! ## Environment and cache-directory resolution -/

/-- The ambient OS identity the script reads: `sys.platform`, the home
directory (`Path.home()`), and the `LOCALAPPDATA` environment variable.
The source never reads `LOCALAPPDATA`; it is carried here so that the
spec-described resolver can be compared with the implemented one. -/
structure Env where
  platform : String
  home : String
  localAppData : String
deriving DecidableEq

/-- Embedding of `get_cache_dir` (setup_hla_database.py lines 15-22):
on `win32` it returns `Path.home() / "AppData" / "Local" / "hai_def_cache"`,
otherwise `Path.home() / ".cache" / "hai_def"`.  Paths are modelled as
strings joined with `/`. -/
def get_cache_dir (e : Env) : String :=
  if e.platform = "win32" then e.home ++ "/AppData/Local/hai_def_cache"
  else e.home ++ "/.cache/hai_def"

/-- Modelled from the spec: the cache-directory resolver as the spec
describes it, returning a directory derived from the
`%LOCALAPPDATA%` environment location on the Windows family
(`%LOCALAPPDATA%\hai_def_cache`), and the home cache directory
elsewhere.  Used only to compare the spec wording with
`get_cache_dir`. -/
def spec_cache_dir (e : Env) : String :=
  if e.platform = "win32" then e.localAppData ++ "/hai_def_cache"
  else e.home ++ "/.cache/hai_def"

/-! ## File contents and the filesystem -/

/-- A scalar JSON value appearing as a field of the config object.
`jother` stands for any JSON value that is neither a string nor a
number (list, object, boolean, null); the script never writes one and
`Path(...)` raises on one, so its internal structure is irrelevant. -/
inductive JVal
  | jstr (v : String)
  | jnum (v : ℚ)
  | jother
deriving DecidableEq

/-- Contents of a file in the model.  `bytes n` is an opaque payload of
`n` bytes (the FASTA file; no claim depends on the actual bytes).
`json fields indent` is a serialized JSON object with the given fields,
written with the given indentation.  `jsonNonObject` is valid JSON whose
root is not an object.  `raw s` is text that is not valid JSON. -/
inductive FileData
  | bytes (size : Nat)
  | json (fields : List (String × JVal)) (indent : Nat)
  | jsonNonObject
  | raw (s : String)
deriving DecidableEq

/-- First-match lookup in an association list keyed by strings. -/
def alist_get {β : Type} : List (String × β) → String → Option β
  | [], _ => none
  | (k, v) :: rest, key => if k = key then some v else alist_get rest key

/-- Remove every binding of a key from an association list. -/
def alist_del {β : Type} : List (String × β) → String → List (String × β)
  | [], _ => []
  | (k, v) :: rest, key =>
      if k = key then alist_del rest key else (k, v) :: alist_del rest key

/-- The filesystem: files as an association list from absolute path to
contents, plus the set of directories that exist. -/
structure FS where
  files : List (String × FileData)
  dirs : List String
deriving DecidableEq

def FS.read (fs : FS) (p : String) : Option FileData :=
  alist_get fs.files p

/-- `Path.exists()` on a file path. -/
def FS.existsF (fs : FS) (p : String) : Bool :=
  (fs.read p).isSome

/-- Create or overwrite a file. -/
def FS.write (fs : FS) (p : String) (d : FileData) : FS :=
  { fs with files := (p, d) :: alist_del fs.files p }

/-- `Path.unlink()`. -/
def FS.unlink (fs : FS) (p : String) : FS :=
  { fs with files := alist_del fs.files p }

/-- `mkdir(parents=True, exist_ok=True)`: ensure the directory exists;
touches no file. -/
def FS.mkdirp (fs : FS) (p : String) : FS :=
  if p ∈ fs.dirs then fs else { fs with dirs := p :: fs.dirs }

/-- `stat().st_size` of a stored payload file. -/
def FS.fileSize (fs : FS) (p : String) : Nat :=
  match fs.read p with
  | some (FileData.bytes n) => n
  | _ => 0

/-! ## Console output, network oracle, process outcome -/

/-- One MiB, the divisor used for every size report (`1024 * 1024`). -/
def MB : ℚ := 1048576

/-- Console messages printed by the script, one constructor per print
site (banner text abstracted, numeric payloads kept). -/
inductive Msg
  | cachedAt (path : String)
  | fileSizeIs (mb : ℚ)
  | downloadingFrom (url : String) (dest : String)
  | progress (percent : ℚ) (mbDown : ℚ) (mbTot : ℚ)
  | newline
  | complete (mb : ℚ)
  | configSaved (path : String)
  | failed
  | notSetUp
  | loadError
deriving DecidableEq

/-- Outcome of the single `requests.get(url, timeout=300, stream=True)`
the script issues.  `failure` is a `RequestException` raised by the call
itself (connection failure, timeout).  `response status contentLength
chunks streamError` is a response with the given status code, optional
`content-length` header, the body chunks `iter_content` delivers (chunk
byte counts), and whether the stream raises a `RequestException` after
those chunks. -/
inductive HttpResult
  | failure
  | response (status : Nat) (contentLength : Option Nat) (chunks : List Nat)
      (streamError : Bool)
deriving DecidableEq

/-- Ambient behaviour of one download attempt: the network outcome, plus
an optional index k meaning the k-th call to `f.write` raises an
`OSError` (a non-transport filesystem failure). -/
structure DlCtx where
  http : HttpResult
  writeFailAt : Option Nat
deriving DecidableEq

/-- How the process run ends: the function returns a path, the process
exits via `sys.exit code`, or an exception propagates uncaught (the
interpreter then terminates with a non-zero status). -/
inductive Outcome
  | ok (path : String)
  | exited (code : Nat)
  | uncaught
deriving DecidableEq

/-! ## The fetch-and-cache operation -/

def fastaPath (cacheDir : String) : String := cacheDir ++ "/hla_prot.fasta"

def configPath (cacheDir : String) : String := cacheDir ++ "/config.json"

def default_url : String :=
  "https://ftp.ebi.ac.uk/pub/databases/ipd/imgt/hla/hla_prot.fasta"

/-- Result of the chunk-writing loop (lines 49-58): the filesystem after
the writes, the progress messages printed, the final value of the
`downloaded` counter, and whether the loop completed without an
`OSError` (`ok = false` means `f.write` raised). -/
structure LoopResult where
  fs : FS
  msgs : List Msg
  downloaded : Nat
  ok : Bool
deriving DecidableEq

/-- Embedding of the `for chunk in response.iter_content(...)` loop.
Empty chunks are skipped (`if chunk:`).  Each written chunk replaces the
target file contents with the bytes received so far, then, when
`total_size > 0`, prints percentage progress.  `writeCount` counts calls
to `f.write` so far, matched against `failAt`. -/
def chunkLoop (fasta : String) (total : Nat) (failAt : Option Nat) :
    List Nat → FS → Nat → Nat → LoopResult
  | [], fs, downloaded, _ => ⟨fs, [], downloaded, true⟩
  | c :: rest, fs, downloaded, writeCount =>
    if c = 0 then chunkLoop fasta total failAt rest fs downloaded writeCount
    else if failAt = some writeCount then ⟨fs, [], downloaded, false⟩
    else
      let downloaded2 := downloaded + c
      let fs2 := fs.write fasta (FileData.bytes downloaded2)
      let pm : List Msg :=
        if 0 < total then
          [Msg.progress (((downloaded2 : ℚ) / (total : ℚ)) * 100)
            ((downloaded2 : ℚ) / MB) (((total : Nat) : ℚ) / MB)]
        else []
      let r := chunkLoop fasta total failAt rest fs2 downloaded2 (writeCount + 1)
      ⟨r.fs, pm ++ r.msgs, r.downloaded, r.ok⟩

/-- Embedding of `download_hla_fasta` (lines 24-82).  Mirrors the
source: ensure the cache directory, early-return when the target file
exists, otherwise issue the GET, stream chunks to the file, and either
write the config record on success, or on a caught `RequestException`
print a failure message, delete the partial file if it exists and
`sys.exit(1)`.  An `OSError` from `f.write` is not caught and
propagates. -/
def download_hla_fasta (fs0 : FS) (cache_dir : String) (url : String)
    (ctx : DlCtx) : FS × List Msg × Outcome :=
  let fs := fs0.mkdirp cache_dir
  let fasta_file := fastaPath cache_dir
  let config_file := configPath cache_dir
  if fs.existsF fasta_file then
    ( fs
    , [Msg.cachedAt fasta_file,
        Msg.fileSizeIs ((fs.fileSize fasta_file : ℚ) / MB)]
    , Outcome.ok fasta_file)
  else
    let hdr : List Msg := [Msg.downloadingFrom url fasta_file]
    match ctx.http with
    | HttpResult.failure =>
        -- RequestException from requests.get; the target file was never
        -- created, so the guarded unlink is a no-op.
        (fs, hdr ++ [Msg.failed], Outcome.exited 1)
    | HttpResult.response status clen chunks streamError =>
      if 400 ≤ status then
        -- raise_for_status raised HTTPError, caught by the same handler.
        (fs, hdr ++ [Msg.failed], Outcome.exited 1)
      else
        let total_size := clen.getD 0
        -- open(fasta_file, 'wb') creates/truncates the file.
        let fs1 := fs.write fasta_file (FileData.bytes 0)
        let r := chunkLoop fasta_file total_size ctx.writeFailAt chunks fs1 0 0
        if r.ok = false then
          -- OSError from f.write: not a RequestException, so it is not
          -- caught; the partial file stays and the process aborts.
          (r.fs, hdr ++ r.msgs, Outcome.uncaught)
        else if streamError then
          let fs3 := if r.fs.existsF fasta_file then r.fs.unlink fasta_file
                     else r.fs
          (fs3, hdr ++ r.msgs ++ [Msg.failed], Outcome.exited 1)
        else
          let tail1 : List Msg := if 0 < total_size then [Msg.newline] else []
          let szb := r.fs.fileSize fasta_file
          let mb : ℚ := (szb : ℚ) / MB
          let cfg := FileData.json
            [("hla_fasta_path", JVal.jstr fasta_file),
             ("download_url", JVal.jstr url),
             ("file_size_mb", JVal.jnum mb)] 2
          let fs3 := r.fs.write config_file cfg
          ( fs3
          , hdr ++ r.msgs ++ tail1 ++ [Msg.complete mb, Msg.configSaved config_file]
          , Outcome.ok fasta_file)

/-! ## The config loader -/

/-- Embedding of `load_hla_path` (lines 84-99).  Resolves the cache
directory from the environment, reads `config.json`, and returns the
stored `hla_fasta_path` string.  A missing file yields a guidance
message; a parse failure, missing key, or non-string value (on which
`Path(...)` raises, caught by `except Exception`) yields an error
message.  The function performs no write, so the filesystem is returned
unchanged. -/
def load_hla_path (env : Env) (fs : FS) : FS × List Msg × Option String :=
  let cache_dir := get_cache_dir env
  let config_file := configPath cache_dir
  match fs.read config_file with
  | none => (fs, [Msg.notSetUp], none)
  | some (FileData.json fields _) =>
    match alist_get fields "hla_fasta_path" with
    | some (JVal.jstr s) => (fs, [], some s)
    | some _ => (fs, [Msg.loadError], none)
    | none => (fs, [Msg.loadError], none)
  | some _ => (fs, [Msg.loadError], none)

/-- State-passing form of `get_cache_dir`: the source function performs
no filesystem call, so the state component is returned untouched. -/
def get_cache_dir_fs (fs : FS) (e : Env) : FS × String :=
  (fs, get_cache_dir e)

/-! ## Derived notions used only in theorem statements -/

/-- The progress lines the chunk loop prints, as a function of the
header-derived total and the chunk sizes: one percentage line per
non-empty chunk when the total is positive, nothing otherwise. -/
def progressOutput (total : Nat) : Nat → List Nat → List Msg
  | _, [] => []
  | d, c :: rest =>
    if c = 0 then progressOutput total d rest
    else
      let d2 := d + c
      (if 0 < total then
        [Msg.progress (((d2 : ℚ) / (total : ℚ)) * 100) ((d2 : ℚ) / MB)
          ((total : ℚ) / MB)]
       else []) ++ progressOutput total d2 rest

/-- Counts the percentage-progress lines in a message list. -/
def numProgress (l : List Msg) : Nat :=
  l.countP (fun m => match m with
    | Msg.progress _ _ _ => true
    | _ => false)

/-- A config file the loader accepts: a JSON object whose
`hla_fasta_path` field is a string. -/
def wellFormedConfig : FileData → Prop
  | FileData.json fields _ => ∃ s, alist_get fields "hla_fasta_path" = some (JVal.jstr s)
  | _ => False

/-- The cache-state invariant: a config record at a cache directory
implies the target file is present there. -/
def configConsistent (fs : FS) (cd : String) : Prop :=
  (fs.read (configPath cd)).isSome → (fs.read (fastaPath cd)).isSome

/-! ## Association-list and filesystem lemmas -/

theorem alist_get_del_self {β : Type} (l : List (String × β)) (k : String) :
    alist_get (alist_del l k) k = none := by
  induction l with
  | nil => rfl
  | cons hd tl ih =>
    obtain ⟨k2, v⟩ := hd
    by_cases h : k2 = k
    · simp [alist_del, h, ih]
    · simp [alist_del, alist_get, h, ih]

theorem alist_get_del_ne {β : Type} (l : List (String × β)) (p q : String)
    (h : p ≠ q) : alist_get (alist_del l q) p = alist_get l p := by
  induction l with
  | nil => rfl
  | cons hd tl ih =>
    obtain ⟨k2, v⟩ := hd
    by_cases h2 : k2 = q
    · simp [alist_del, alist_get, h2, Ne.symm h, ih]
    · simp [alist_del, alist_get, h2, ih]

theorem FS.read_write_self (fs : FS) (p : String) (d : FileData) :
    (fs.write p d).read p = some d := by
  simp [FS.write, FS.read, alist_get]

theorem FS.read_write_ne (fs : FS) (p q : String) (d : FileData) (h : p ≠ q) :
    (fs.write q d).read p = fs.read p := by
  simp [FS.write, FS.read, alist_get, Ne.symm h, alist_get_del_ne _ _ _ h]

theorem FS.read_unlink_self (fs : FS) (p : String) :
    (fs.unlink p).read p = none := by
  simp [FS.unlink, FS.read, alist_get_del_self]

theorem FS.read_unlink_ne (fs : FS) (p q : String) (h : p ≠ q) :
    (fs.unlink q).read p = fs.read p := by
  simp [FS.unlink, FS.read, alist_get_del_ne _ _ _ h]

theorem FS.read_mkdirp (fs : FS) (p q : String) :
    (fs.mkdirp q).read p = fs.read p := by
  simp only [FS.mkdirp]
  split <;> rfl

theorem FS.files_mkdirp (fs : FS) (q : String) :
    (fs.mkdirp q).files = fs.files := by
  simp only [FS.mkdirp]
  split <;> rfl

theorem FS.existsF_mkdirp (fs : FS) (p q : String) :
    (fs.mkdirp q).existsF p = fs.existsF p := by
  simp [FS.existsF, FS.read_mkdirp]

theorem FS.mkdirp_idem (fs : FS) (p : String) :
    (fs.mkdirp p).mkdirp p = fs.mkdirp p := by
  by_cases h : p ∈ fs.dirs
  · simp [FS.mkdirp, h]
  · simp [FS.mkdirp, h]

theorem fastaPath_ne_configPath (cd : String) : fastaPath cd ≠ configPath cd := by
  intro h
  have h2 := congrArg String.length h
  simp [fastaPath, configPath, String.length_append] at h2
  exact absurd h2 (by decide)

/-! ## Chunk-loop lemmas -/

theorem chunkLoop_read_ne (fasta : String) (total : Nat) (failAt : Option Nat)
    (p : String) (hp : p ≠ fasta) (chunks : List Nat) :
    ∀ (fs : FS) (d wc : Nat),
      (chunkLoop fasta total failAt chunks fs d wc).fs.read p = fs.read p := by
  induction chunks with
  | nil => intro fs d wc; rfl
  | cons c rest ih =>
    intro fs d wc
    by_cases hc : c = 0
    · simp [chunkLoop, hc, ih]
    · by_cases hf : failAt = some wc
      · simp [chunkLoop, hc, hf]
      · simp [chunkLoop, hc, hf, ih, FS.read_write_ne _ _ _ _ hp]

theorem chunkLoop_fasta_bytes (fasta : String) (total : Nat)
    (failAt : Option Nat) (chunks : List Nat) :
    ∀ (fs : FS) (d wc : Nat), fs.read fasta = some (FileData.bytes d) →
      (chunkLoop fasta total failAt chunks fs d wc).fs.read fasta
        = some (FileData.bytes (chunkLoop fasta total failAt chunks fs d wc).downloaded) := by
  induction chunks with
  | nil => intro fs d wc h; simpa [chunkLoop]
  | cons c rest ih =>
    intro fs d wc h
    by_cases hc : c = 0
    · simp [chunkLoop, hc]
      exact ih fs d wc h
    · by_cases hf : failAt = some wc
      · simpa [chunkLoop, hc, hf]
      · simp [chunkLoop, hc, hf]
        exact ih _ _ _ (FS.read_write_self _ _ _)

theorem chunkLoop_ok_of_failAt_none (fasta : String) (total : Nat)
    (chunks : List Nat) :
    ∀ (fs : FS) (d wc : Nat),
      (chunkLoop fasta total none chunks fs d wc).ok = true := by
  induction chunks with
  | nil => intro fs d wc; rfl
  | cons c rest ih =>
    intro fs d wc
    by_cases hc : c = 0
    · simp [chunkLoop, hc, ih]
    · simp [chunkLoop, hc, ih]

theorem chunkLoop_msgs_of_failAt_none (fasta : String) (total : Nat)
    (chunks : List Nat) :
    ∀ (fs : FS) (d wc : Nat),
      (chunkLoop fasta total none chunks fs d wc).msgs = progressOutput total d chunks := by
  induction chunks with
  | nil => intro fs d wc; rfl
  | cons c rest ih =>
    intro fs d wc
    by_cases hc : c = 0
    · simp [chunkLoop, progressOutput, hc, ih]
    · by_cases ht : 0 < total
      · simp [chunkLoop, progressOutput, hc, ht, ih]
      · simp [chunkLoop, progressOutput, hc, ht, ih]

theorem progressOutput_total_zero (chunks : List Nat) :
    ∀ d : Nat, progressOutput 0 d chunks = [] := by
  induction chunks with
  | nil => intro d; rfl
  | cons c rest ih =>
    intro d
    by_cases hc : c = 0 <;> simp [progressOutput, hc, ih]

theorem numProgress_progressOutput (total : Nat) (ht : 0 < total)
    (chunks : List Nat) :
    ∀ d : Nat, numProgress (progressOutput total d chunks)
      = (chunks.filter (fun c => c != 0)).length := by
  induction chunks with
  | nil => intro d; rfl
  | cons c rest ih =>
    intro d
    by_cases hc : c = 0
    · simp [progressOutput, hc, ih]
    · have h2 := ih (d + c)
      simp only [numProgress] at h2 ⊢
      simp [progressOutput, hc, ht, List.countP_cons, List.filter_cons, h2]

theorem FS.read_eq_none (fs : FS) (p : String) (h : fs.existsF p = false) :
    fs.read p = none := by
  cases hr : fs.read p with
  | none => rfl
  | some d =>
    unfold FS.existsF at h
    rw [hr] at h
    simp at h

/-! ## Shape lemmas: one per branch of the fetch-and-cache operation -/

/-- Early-return branch (target file already cached). -/
theorem download_early (fs0 : FS) (cd url : String) (ctx : DlCtx)
    (hex : fs0.existsF (fastaPath cd) = true) :
    download_hla_fasta fs0 cd url ctx =
      (fs0.mkdirp cd,
       [Msg.cachedAt (fastaPath cd),
        Msg.fileSizeIs (((fs0.mkdirp cd).fileSize (fastaPath cd) : ℚ) / MB)],
       Outcome.ok (fastaPath cd)) := by
  simp [download_hla_fasta, FS.existsF_mkdirp, hex]

/-- Branch where `requests.get` itself raises. -/
theorem download_net_fail (fs0 : FS) (cd url : String) (wf : Option Nat)
    (hnf : fs0.existsF (fastaPath cd) = false) :
    download_hla_fasta fs0 cd url ⟨HttpResult.failure, wf⟩ =
      (fs0.mkdirp cd,
       [Msg.downloadingFrom url (fastaPath cd), Msg.failed],
       Outcome.exited 1) := by
  simp [download_hla_fasta, FS.existsF_mkdirp, hnf]

/-- Branch where `raise_for_status` raises (status 400 or above). -/
theorem download_status_fail (fs0 : FS) (cd url : String) (st : Nat)
    (clen : Option Nat) (chunks : List Nat) (se : Bool) (wf : Option Nat)
    (hnf : fs0.existsF (fastaPath cd) = false) (hst : 400 ≤ st) :
    download_hla_fasta fs0 cd url ⟨HttpResult.response st clen chunks se, wf⟩ =
      (fs0.mkdirp cd,
       [Msg.downloadingFrom url (fastaPath cd), Msg.failed],
       Outcome.exited 1) := by
  simp [download_hla_fasta, FS.existsF_mkdirp, hnf, hst]

/-- Branch where the stream raises after the delivered chunks and the
handler deletes the partial file and exits. -/
theorem download_stream_fail (fs0 : FS) (cd url : String) (st : Nat)
    (clen : Option Nat) (chunks : List Nat) (wf : Option Nat)
    (hnf : fs0.existsF (fastaPath cd) = false) (hst : ¬ 400 ≤ st)
    (hlok : (chunkLoop (fastaPath cd) (clen.getD 0) wf chunks
      ((fs0.mkdirp cd).write (fastaPath cd) (FileData.bytes 0)) 0 0).ok = true) :
    download_hla_fasta fs0 cd url ⟨HttpResult.response st clen chunks true, wf⟩ =
      ((chunkLoop (fastaPath cd) (clen.getD 0) wf chunks
          ((fs0.mkdirp cd).write (fastaPath cd) (FileData.bytes 0)) 0 0).fs.unlink
          (fastaPath cd),
       [Msg.downloadingFrom url (fastaPath cd)] ++
         (chunkLoop (fastaPath cd) (clen.getD 0) wf chunks
           ((fs0.mkdirp cd).write (fastaPath cd) (FileData.bytes 0)) 0 0).msgs ++
         [Msg.failed],
       Outcome.exited 1) := by
  have hfe : (chunkLoop (fastaPath cd) (clen.getD 0) wf chunks
      ((fs0.mkdirp cd).write (fastaPath cd) (FileData.bytes 0)) 0 0).fs.existsF
      (fastaPath cd) = true := by
    have hb := chunkLoop_fasta_bytes (fastaPath cd) (clen.getD 0) wf chunks
      ((fs0.mkdirp cd).write (fastaPath cd) (FileData.bytes 0)) 0 0
      (FS.read_write_self _ _ _)
    simp [FS.existsF, hb]
  simp [download_hla_fasta, FS.existsF_mkdirp, hnf, hst, hlok, hfe]

/-- Branch where `f.write` raises an `OSError` mid-loop: the exception
is not caught, the partial file stays, the process aborts. -/
theorem download_write_fail (fs0 : FS) (cd url : String) (st : Nat)
    (clen : Option Nat) (chunks : List Nat) (se : Bool) (wf : Option Nat)
    (hnf : fs0.existsF (fastaPath cd) = false) (hst : ¬ 400 ≤ st)
    (hfail : (chunkLoop (fastaPath cd) (clen.getD 0) wf chunks
      ((fs0.mkdirp cd).write (fastaPath cd) (FileData.bytes 0)) 0 0).ok = false) :
    download_hla_fasta fs0 cd url ⟨HttpResult.response st clen chunks se, wf⟩ =
      ((chunkLoop (fastaPath cd) (clen.getD 0) wf chunks
          ((fs0.mkdirp cd).write (fastaPath cd) (FileData.bytes 0)) 0 0).fs,
       [Msg.downloadingFrom url (fastaPath cd)] ++
         (chunkLoop (fastaPath cd) (clen.getD 0) wf chunks
           ((fs0.mkdirp cd).write (fastaPath cd) (FileData.bytes 0)) 0 0).msgs,
       Outcome.uncaught) := by
  simp [download_hla_fasta, FS.existsF_mkdirp, hnf, hst, hfail]

/-- Successful download branch: the file holds the streamed bytes and
the config record is written. -/
theorem download_success (fs0 : FS) (cd url : String) (st : Nat)
    (clen : Option Nat) (chunks : List Nat) (wf : Option Nat)
    (hnf : fs0.existsF (fastaPath cd) = false) (hst : ¬ 400 ≤ st)
    (hlok : (chunkLoop (fastaPath cd) (clen.getD 0) wf chunks
      ((fs0.mkdirp cd).write (fastaPath cd) (FileData.bytes 0)) 0 0).ok = true) :
    download_hla_fasta fs0 cd url ⟨HttpResult.response st clen chunks false, wf⟩ =
      ((chunkLoop (fastaPath cd) (clen.getD 0) wf chunks
          ((fs0.mkdirp cd).write (fastaPath cd) (FileData.bytes 0)) 0 0).fs.write
          (configPath cd)
          (FileData.json
            [("hla_fasta_path", JVal.jstr (fastaPath cd)),
             ("download_url", JVal.jstr url),
             ("file_size_mb", JVal.jnum
               (((chunkLoop (fastaPath cd) (clen.getD 0) wf chunks
                   ((fs0.mkdirp cd).write (fastaPath cd) (FileData.bytes 0)) 0 0).fs.fileSize
                   (fastaPath cd) : ℚ) / MB))] 2),
       [Msg.downloadingFrom url (fastaPath cd)] ++
         (chunkLoop (fastaPath cd) (clen.getD 0) wf chunks
           ((fs0.mkdirp cd).write (fastaPath cd) (FileData.bytes 0)) 0 0).msgs ++
         (if 0 < clen.getD 0 then [Msg.newline] else []) ++
         [Msg.complete
            (((chunkLoop (fastaPath cd) (clen.getD 0) wf chunks
                ((fs0.mkdirp cd).write (fastaPath cd) (FileData.bytes 0)) 0 0).fs.fileSize
                (fastaPath cd) : ℚ) / MB),
          Msg.configSaved (configPath cd)],
       Outcome.ok (fastaPath cd)) := by
  simp [download_hla_fasta, FS.existsF_mkdirp, hnf, hst, hlok]

/-- A successful run always returns the target path, and afterwards the
target file exists. -/
theorem download_ok_cases (fs0 : FS) (cd url : String) (ctx : DlCtx) (P : String)
    (hok : (download_hla_fasta fs0 cd url ctx).2.2 = Outcome.ok P) :
    P = fastaPath cd ∧
    (download_hla_fasta fs0 cd url ctx).1.existsF (fastaPath cd) = true := by
  obtain ⟨http, wf⟩ := ctx
  by_cases hex : fs0.existsF (fastaPath cd) = true
  · rw [download_early fs0 cd url ⟨http, wf⟩ hex] at hok ⊢
    simp at hok
    exact ⟨hok.symm, by simp [FS.existsF_mkdirp, hex]⟩
  · have hnf : fs0.existsF (fastaPath cd) = false := by
      cases hb : fs0.existsF (fastaPath cd) <;> simp_all
    cases http with
    | failure =>
      rw [download_net_fail fs0 cd url wf hnf] at hok
      simp at hok
    | response st clen chunks se =>
      by_cases hst : 400 ≤ st
      · rw [download_status_fail fs0 cd url st clen chunks se wf hnf hst] at hok
        simp at hok
      · by_cases hlok : (chunkLoop (fastaPath cd) (clen.getD 0) wf chunks
            ((fs0.mkdirp cd).write (fastaPath cd) (FileData.bytes 0)) 0 0).ok = true
        · cases se with
          | true =>
            rw [download_stream_fail fs0 cd url st clen chunks wf hnf hst hlok] at hok
            simp at hok
          | false =>
            rw [download_success fs0 cd url st clen chunks wf hnf hst hlok] at hok ⊢
            simp at hok
            refine ⟨hok.symm, ?_⟩
            have hb := chunkLoop_fasta_bytes (fastaPath cd) (clen.getD 0) wf chunks
              ((fs0.mkdirp cd).write (fastaPath cd) (FileData.bytes 0)) 0 0
              (FS.read_write_self _ _ _)
            simp [FS.existsF,
              FS.read_write_ne _ _ _ _ (fastaPath_ne_configPath cd), hb]
        · have hfail : (chunkLoop (fastaPath cd) (clen.getD 0) wf chunks
              ((fs0.mkdirp cd).write (fastaPath cd) (FileData.bytes 0)) 0 0).ok = false := by
            cases hb : (chunkLoop (fastaPath cd) (clen.getD 0) wf chunks
              ((fs0.mkdirp cd).write (fastaPath cd) (FileData.bytes 0)) 0 0).ok <;> simp_all
          rw [download_write_fail fs0 cd url st clen chunks se wf hnf hst hfail] at hok
          simp at hok

/-! ## Claim C1 -/

/-- Claim C1 as stated is false at non-2xx statuses below 400: a 304
response is accepted by `raise_for_status` (which raises only for
status 400 and above), so the run proceeds, writes the (empty) target
file and the config record, prints no failure message and returns
successfully — none of the claimed failure effects occur. -/
theorem c1_counterexample :
    (download_hla_fasta ⟨[], []⟩ "/c" "u"
        ⟨HttpResult.response 304 none [] false, none⟩).2.2
      = Outcome.ok (fastaPath "/c") ∧
    (download_hla_fasta ⟨[], []⟩ "/c" "u"
        ⟨HttpResult.response 304 none [] false, none⟩).1.existsF
        (fastaPath "/c") = true ∧
    ((download_hla_fasta ⟨[], []⟩ "/c" "u"
        ⟨HttpResult.response 304 none [] false, none⟩).1.read
        (configPath "/c")).isSome = true ∧
    (download_hla_fasta ⟨[], []⟩ "/c" "u"
        ⟨HttpResult.response 304 none [] false, none⟩).2.1
      = [Msg.downloadingFrom "u" (fastaPath "/c"), Msg.complete (0 / MB),
         Msg.configSaved (configPath "/c")] ∧
    Msg.failed ∉ (download_hla_fasta ⟨[], []⟩ "/c" "u"
        ⟨HttpResult.response 304 none [] false, none⟩).2.1 := by
  refine ⟨by rfl, by rfl, by rfl, by rfl, ?_⟩
  intro hmem
  rw [show (download_hla_fasta ⟨[], []⟩ "/c" "u"
      ⟨HttpResult.response 304 none [] false, none⟩).2.1
      = [Msg.downloadingFrom "u" (fastaPath "/c"), Msg.complete (0 / MB),
         Msg.configSaved (configPath "/c")] from by rfl] at hmem
  simp at hmem

/-- Claim C1 (amended): if a transport-level failure — a connection
failure, a timeout, a 4xx or 5xx status (status 400 or above, the
statuses `raise_for_status` raises for; a non-2xx status below 400 such
as 304 is accepted and the run completes normally), or a streaming
error — occurs during the request or the chunked download, then
afterwards the partially written target file does not exist, the config
file entry is neither created nor updated, a failure message is
printed, and the process terminates with exit code 1. -/
theorem c1_transport_failure_atomicity (fs0 : FS) (cd url : String) (ctx : DlCtx)
    (hnf : fs0.existsF (fastaPath cd) = false)
    (hwf : ctx.writeFailAt = none)
    (htf : ctx.http = HttpResult.failure ∨
      ∃ st clen chunks se, ctx.http = HttpResult.response st clen chunks se ∧
        (400 ≤ st ∨ se = true)) :
    (download_hla_fasta fs0 cd url ctx).1.read (fastaPath cd) = none ∧
    (download_hla_fasta fs0 cd url ctx).1.read (configPath cd)
      = fs0.read (configPath cd) ∧
    Msg.failed ∈ (download_hla_fasta fs0 cd url ctx).2.1 ∧
    (download_hla_fasta fs0 cd url ctx).2.2 = Outcome.exited 1 := by
  obtain ⟨http, wf⟩ := ctx
  simp only at hwf
  subst hwf
  rcases htf with h | ⟨st, clen, chunks, se, h, hcase⟩
  · simp only at h
    subst h
    rw [download_net_fail fs0 cd url none hnf]
    refine ⟨?_, ?_, ?_, rfl⟩
    · simp [FS.read_mkdirp, FS.read_eq_none fs0 _ hnf]
    · simp [FS.read_mkdirp]
    · simp
  · simp only at h
    subst h
    by_cases hst : 400 ≤ st
    · rw [download_status_fail fs0 cd url st clen chunks se none hnf hst]
      refine ⟨?_, ?_, ?_, rfl⟩
      · simp [FS.read_mkdirp, FS.read_eq_none fs0 _ hnf]
      · simp [FS.read_mkdirp]
      · simp
    · have hse : se = true := by
        rcases hcase with h1 | h1
        · exact absurd h1 hst
        · exact h1
      subst hse
      rw [download_stream_fail fs0 cd url st clen chunks none hnf hst
        (chunkLoop_ok_of_failAt_none _ _ _ _ _ _)]
      refine ⟨?_, ?_, ?_, rfl⟩
      · simp [FS.read_unlink_self]
      · rw [FS.read_unlink_ne _ _ _ (Ne.symm (fastaPath_ne_configPath cd)),
          chunkLoop_read_ne _ _ _ _ (Ne.symm (fastaPath_ne_configPath cd)),
          FS.read_write_ne _ _ _ _ (Ne.symm (fastaPath_ne_configPath cd)),
          FS.read_mkdirp]
      · simp

/-- Witness for C1: a concrete mid-stream failure after one delivered
chunk, in an initially empty filesystem. -/
theorem c1_transport_failure_atomicity_witness :
    (FS.existsF ⟨[], []⟩ (fastaPath "/h/.cache/hai_def") = false ∧
      (⟨HttpResult.response 200 (some 10) [5] true, none⟩ : DlCtx).writeFailAt = none) ∧
    ((download_hla_fasta ⟨[], []⟩ "/h/.cache/hai_def" "u"
        ⟨HttpResult.response 200 (some 10) [5] true, none⟩).1.read
        (fastaPath "/h/.cache/hai_def") = none ∧
      (download_hla_fasta ⟨[], []⟩ "/h/.cache/hai_def" "u"
        ⟨HttpResult.response 200 (some 10) [5] true, none⟩).1.read
        (configPath "/h/.cache/hai_def") = FS.read ⟨[], []⟩ (configPath "/h/.cache/hai_def") ∧
      Msg.failed ∈ (download_hla_fasta ⟨[], []⟩ "/h/.cache/hai_def" "u"
        ⟨HttpResult.response 200 (some 10) [5] true, none⟩).2.1 ∧
      (download_hla_fasta ⟨[], []⟩ "/h/.cache/hai_def" "u"
        ⟨HttpResult.response 200 (some 10) [5] true, none⟩).2.2 = Outcome.exited 1) :=
  ⟨⟨rfl, rfl⟩,
    c1_transport_failure_atomicity ⟨[], []⟩ "/h/.cache/hai_def" "u"
      ⟨HttpResult.response 200 (some 10) [5] true, none⟩ rfl rfl
      (Or.inr ⟨200, some 10, [5], true, rfl, Or.inr rfl⟩)⟩

/-! ## Claim C5 -/

/-- Claim C5 as stated is false: the resolver never consults the
`LOCALAPPDATA` environment location; with home `C:/Users/u` and
`LOCALAPPDATA` relocated to `D:/LocalData`, the code returns the
path under home, not the one under `LOCALAPPDATA`. -/
theorem c5_counterexample :
    get_cache_dir ⟨"win32", "C:/Users/u", "D:/LocalData"⟩
      ≠ spec_cache_dir ⟨"win32", "C:/Users/u", "D:/LocalData"⟩ ∧
    get_cache_dir ⟨"win32", "C:/Users/u", "D:/LocalData"⟩
      = "C:/Users/u/AppData/Local/hai_def_cache" := by
  constructor
  · intro h
    revert h
    decide
  · rfl

/-- Claim C5 (amended): on the Windows family the resolver returns
`home ++ "/AppData/Local/hai_def_cache"` — the default local-app-data
location under the home directory, computed without consulting the
`LOCALAPPDATA` environment variable — and on every other OS it returns
`home ++ "/.cache/hai_def"`; the two descriptions agree whenever
`LOCALAPPDATA` holds its default value `home ++ "/AppData/Local"`. -/
theorem c5_platform_path_selection (e : Env) :
    (e.platform = "win32" →
      get_cache_dir e = e.home ++ "/AppData/Local/hai_def_cache") ∧
    (e.platform ≠ "win32" →
      get_cache_dir e = e.home ++ "/.cache/hai_def") ∧
    (e.localAppData = e.home ++ "/AppData/Local" →
      get_cache_dir e = spec_cache_dir e) := by
  refine ⟨?_, ?_, ?_⟩
  · intro h
    simp [get_cache_dir, h]
  · intro h
    simp [get_cache_dir, h]
  · intro h
    by_cases hw : e.platform = "win32"
    · simp only [get_cache_dir, spec_cache_dir, hw, if_pos rfl, h,
        String.append_assoc]
      rfl
    · simp [get_cache_dir, spec_cache_dir, hw]

/-- Witness for C5 (amended): the default-environment Windows case. -/
theorem c5_platform_path_selection_witness :
    get_cache_dir ⟨"win32", "C:/Users/u", "C:/Users/u/AppData/Local"⟩
      = "C:/Users/u" ++ "/AppData/Local/hai_def_cache" :=
  (c5_platform_path_selection ⟨"win32", "C:/Users/u", "C:/Users/u/AppData/Local"⟩).1 rfl

/-! ## Claim C9 -/

/-- Claim C9: the cache-directory resolver is pure and deterministic:
any two calls under the same OS identity and home directory return the
same path (independently of the rest of the environment), and the
state-passing form returns the filesystem unchanged (no directory is
created, nothing is written). -/
theorem c9_resolver_deterministic_pure (e1 e2 : Env) (fs : FS)
    (hp : e1.platform = e2.platform) (hh : e1.home = e2.home) :
    get_cache_dir e1 = get_cache_dir e2 ∧
    get_cache_dir_fs fs e1 = (fs, get_cache_dir e1) := by
  constructor
  · simp [get_cache_dir, hp, hh]
  · rfl

/-- Witness for C9: two environments agreeing on platform and home but
differing in `LOCALAPPDATA`. -/
theorem c9_resolver_deterministic_pure_witness :
    get_cache_dir ⟨"linux", "/home/u", "A"⟩ = get_cache_dir ⟨"linux", "/home/u", "B"⟩ ∧
    get_cache_dir_fs ⟨[], []⟩ ⟨"linux", "/home/u", "A"⟩
      = (⟨[], []⟩, get_cache_dir ⟨"linux", "/home/u", "A"⟩) :=
  c9_resolver_deterministic_pure ⟨"linux", "/home/u", "A"⟩ ⟨"linux", "/home/u", "B"⟩
    ⟨[], []⟩ rfl rfl

/-! ## Claim C7 -/

/-- Claim C7: the config loader never mutates the filesystem; when the
config file does not exist it prints the guidance message and returns an
absent value; when the file exists but is unparseable or lacks the
expected string-valued key it prints an error diagnostic and returns an
absent value.  The loader is a total function of the embedding, so no
unhandled fault, write or download occurs in any case. -/
theorem c7_loader_error_behaviour (env : Env) (fs : FS) :
    (load_hla_path env fs).1 = fs ∧
    (fs.read (configPath (get_cache_dir env)) = none →
      load_hla_path env fs = (fs, [Msg.notSetUp], none)) ∧
    (∀ d, fs.read (configPath (get_cache_dir env)) = some d →
      ¬ wellFormedConfig d →
      load_hla_path env fs = (fs, [Msg.loadError], none)) := by
  refine ⟨?_, ?_, ?_⟩
  · simp only [load_hla_path]
    cases h : fs.read (configPath (get_cache_dir env)) with
    | none => simp
    | some d =>
      cases d with
      | bytes n => simp
      | jsonNonObject => simp
      | raw s => simp
      | json fields i =>
        cases h2 : alist_get fields "hla_fasta_path" with
        | none => simp [h2]
        | some v => cases v <;> simp [h2]
  · intro h
    simp [load_hla_path, h]
  · intro d hd hwf
    simp only [load_hla_path, hd]
    cases d with
    | bytes n => simp
    | jsonNonObject => simp
    | raw s => simp
    | json fields i =>
      cases h2 : alist_get fields "hla_fasta_path" with
      | none => simp [h2]
      | some v =>
        cases v with
        | jstr s => exact absurd ⟨s, h2⟩ hwf
        | jnum q => simp [h2]
        | jother => simp [h2]

/-- Witness for C7: a syntactically invalid config file yields the
diagnostic and an absent value, with the filesystem unchanged. -/
theorem c7_loader_error_behaviour_witness :
    load_hla_path ⟨"linux", "/h", ""⟩
        ⟨[("/h/.cache/hai_def/config.json", FileData.raw "oops")], []⟩
      = (⟨[("/h/.cache/hai_def/config.json", FileData.raw "oops")], []⟩,
         [Msg.loadError], none) :=
  (c7_loader_error_behaviour ⟨"linux", "/h", ""⟩
      ⟨[("/h/.cache/hai_def/config.json", FileData.raw "oops")], []⟩).2.2
    (FileData.raw "oops") rfl (fun h => h)

/-! ## Claim C10 -/

/-- Claim C10 (implicit): on the early-return path (target file already
cached) the operation neither creates nor updates the config file — the
whole filesystem change is the idempotent directory creation — and in
the resulting state a loader call against a configless cache directory
returns an absent value after the guidance message. -/
theorem c10_early_return_frame (env : Env) (fs0 : FS) (url : String) (ctx : DlCtx)
    (hex : fs0.existsF (fastaPath (get_cache_dir env)) = true) :
    (download_hla_fasta fs0 (get_cache_dir env) url ctx).1
      = fs0.mkdirp (get_cache_dir env) ∧
    (download_hla_fasta fs0 (get_cache_dir env) url ctx).1.files = fs0.files ∧
    (download_hla_fasta fs0 (get_cache_dir env) url ctx).1.read
        (configPath (get_cache_dir env))
      = fs0.read (configPath (get_cache_dir env)) ∧
    (fs0.mkdirp (get_cache_dir env)).mkdirp (get_cache_dir env)
      = fs0.mkdirp (get_cache_dir env) ∧
    (fs0.read (configPath (get_cache_dir env)) = none →
      load_hla_path env (download_hla_fasta fs0 (get_cache_dir env) url ctx).1
        = ((download_hla_fasta fs0 (get_cache_dir env) url ctx).1,
           [Msg.notSetUp], none)) := by
  rw [download_early fs0 (get_cache_dir env) url ctx hex]
  refine ⟨rfl, FS.files_mkdirp _ _, FS.read_mkdirp _ _ _, FS.mkdirp_idem _ _, ?_⟩
  intro hcfg
  simp [load_hla_path, FS.read_mkdirp, hcfg]

/-- Witness for C10: a cache directory holding only the target file and
no config record. -/
theorem c10_early_return_frame_witness :
    (FS.existsF ⟨[(fastaPath (get_cache_dir ⟨"linux", "/h", ""⟩), FileData.bytes 7)], []⟩
        (fastaPath (get_cache_dir ⟨"linux", "/h", ""⟩)) = true) ∧
    load_hla_path ⟨"linux", "/h", ""⟩
        (download_hla_fasta
          ⟨[(fastaPath (get_cache_dir ⟨"linux", "/h", ""⟩), FileData.bytes 7)], []⟩
          (get_cache_dir ⟨"linux", "/h", ""⟩) "u" ⟨HttpResult.failure, none⟩).1
      = ((download_hla_fasta
            ⟨[(fastaPath (get_cache_dir ⟨"linux", "/h", ""⟩), FileData.bytes 7)], []⟩
            (get_cache_dir ⟨"linux", "/h", ""⟩) "u" ⟨HttpResult.failure, none⟩).1,
         [Msg.notSetUp], none) :=
  ⟨rfl,
    (c10_early_return_frame ⟨"linux", "/h", ""⟩
        ⟨[(fastaPath (get_cache_dir ⟨"linux", "/h", ""⟩), FileData.bytes 7)], []⟩
        "u" ⟨HttpResult.failure, none⟩ rfl).2.2.2.2 rfl⟩

/-! ## Claim C3 -/

/-- Claim C3: after a fetch-and-cache call against the resolver's cache
directory that performs a download, succeeds, returns path P and writes
the config record, a subsequent config-load call returns exactly P. -/
theorem c3_roundtrip (env : Env) (fs0 : FS) (url : String) (ctx : DlCtx) (P : String)
    (hnf : fs0.existsF (fastaPath (get_cache_dir env)) = false)
    (hok : (download_hla_fasta fs0 (get_cache_dir env) url ctx).2.2 = Outcome.ok P) :
    (load_hla_path env (download_hla_fasta fs0 (get_cache_dir env) url ctx).1).2.2
      = some P := by
  obtain ⟨http, wf⟩ := ctx
  cases http with
  | failure =>
    rw [download_net_fail fs0 (get_cache_dir env) url wf hnf] at hok
    simp at hok
  | response st clen chunks se =>
    by_cases hst : 400 ≤ st
    · rw [download_status_fail fs0 (get_cache_dir env) url st clen chunks se wf
        hnf hst] at hok
      simp at hok
    · by_cases hlok : (chunkLoop (fastaPath (get_cache_dir env)) (clen.getD 0) wf chunks
          ((fs0.mkdirp (get_cache_dir env)).write (fastaPath (get_cache_dir env))
            (FileData.bytes 0)) 0 0).ok = true
      · cases se with
        | true =>
          rw [download_stream_fail fs0 (get_cache_dir env) url st clen chunks wf
            hnf hst hlok] at hok
          simp at hok
        | false =>
          rw [download_success fs0 (get_cache_dir env) url st clen chunks wf
            hnf hst hlok] at hok ⊢
          simp at hok
          subst hok
          simp [load_hla_path, FS.read_write_self, alist_get]
      · have hfail : (chunkLoop (fastaPath (get_cache_dir env)) (clen.getD 0) wf chunks
            ((fs0.mkdirp (get_cache_dir env)).write (fastaPath (get_cache_dir env))
              (FileData.bytes 0)) 0 0).ok = false := by
          cases hb : (chunkLoop (fastaPath (get_cache_dir env)) (clen.getD 0) wf chunks
            ((fs0.mkdirp (get_cache_dir env)).write (fastaPath (get_cache_dir env))
              (FileData.bytes 0)) 0 0).ok <;> simp_all
        rw [download_write_fail fs0 (get_cache_dir env) url st clen chunks se wf
          hnf hst hfail] at hok
        simp at hok

/-- Witness for C3: a concrete successful two-chunk download followed by
a load call. -/
theorem c3_roundtrip_witness :
    (FS.existsF ⟨[], []⟩ (fastaPath (get_cache_dir ⟨"linux", "/h", ""⟩)) = false ∧
      (download_hla_fasta ⟨[], []⟩ (get_cache_dir ⟨"linux", "/h", ""⟩) "u"
        ⟨HttpResult.response 200 (some 10) [5, 5] false, none⟩).2.2
        = Outcome.ok "/h/.cache/hai_def/hla_prot.fasta") ∧
    (load_hla_path ⟨"linux", "/h", ""⟩
        (download_hla_fasta ⟨[], []⟩ (get_cache_dir ⟨"linux", "/h", ""⟩) "u"
          ⟨HttpResult.response 200 (some 10) [5, 5] false, none⟩).1).2.2
      = some "/h/.cache/hai_def/hla_prot.fasta" :=
  ⟨⟨rfl, by decide⟩,
    c3_roundtrip ⟨"linux", "/h", ""⟩ ⟨[], []⟩ "u"
      ⟨HttpResult.response 200 (some 10) [5, 5] false, none⟩
      "/h/.cache/hai_def/hla_prot.fasta" rfl (by decide)⟩

/-! ## Claim C4 -/

/-- Claim C4: when the target file already exists the operation reports
its size and returns the target path immediately, with a result
independent of the network and fault context (no network activity);
consequently, after any successful run a second invocation against the
same cache directory is again network-independent and returns the same
path. -/
theorem c4_idempotence (fs0 : FS) (cd url : String) :
    (∀ ctx ctx2 : DlCtx, fs0.existsF (fastaPath cd) = true →
      download_hla_fasta fs0 cd url ctx =
        (fs0.mkdirp cd,
         [Msg.cachedAt (fastaPath cd),
          Msg.fileSizeIs (((fs0.mkdirp cd).fileSize (fastaPath cd) : ℚ) / MB)],
         Outcome.ok (fastaPath cd)) ∧
      download_hla_fasta fs0 cd url ctx = download_hla_fasta fs0 cd url ctx2) ∧
    (∀ (ctx1 ctx2 ctx3 : DlCtx) (P : String),
      (download_hla_fasta fs0 cd url ctx1).2.2 = Outcome.ok P →
      (download_hla_fasta (download_hla_fasta fs0 cd url ctx1).1 cd url ctx2).2.2
        = Outcome.ok P ∧
      download_hla_fasta (download_hla_fasta fs0 cd url ctx1).1 cd url ctx2
        = download_hla_fasta (download_hla_fasta fs0 cd url ctx1).1 cd url ctx3) := by
  constructor
  · intro ctx ctx2 hex
    rw [download_early fs0 cd url ctx hex, download_early fs0 cd url ctx2 hex]
    exact ⟨rfl, rfl⟩
  · intro ctx1 ctx2 ctx3 P hok
    obtain ⟨hP, hex2⟩ := download_ok_cases fs0 cd url ctx1 P hok
    subst hP
    rw [download_early _ cd url ctx2 hex2, download_early _ cd url ctx3 hex2]
    exact ⟨rfl, rfl⟩

/-- Witness for C4: a populated cache directory short-circuits, and a
fresh download followed by a re-invocation returns the same path. -/
theorem c4_idempotence_witness :
    (FS.existsF ⟨[(fastaPath "/c", FileData.bytes 7)], []⟩ (fastaPath "/c") = true ∧
      download_hla_fasta ⟨[(fastaPath "/c", FileData.bytes 7)], []⟩ "/c" "u"
          ⟨HttpResult.failure, none⟩
        = download_hla_fasta ⟨[(fastaPath "/c", FileData.bytes 7)], []⟩ "/c" "u"
          ⟨HttpResult.response 200 (some 10) [5, 5] false, none⟩) ∧
    ((download_hla_fasta ⟨[], []⟩ "/c" "u"
        ⟨HttpResult.response 200 (some 10) [5, 5] false, none⟩).2.2
      = Outcome.ok (fastaPath "/c") ∧
      (download_hla_fasta
          (download_hla_fasta ⟨[], []⟩ "/c" "u"
            ⟨HttpResult.response 200 (some 10) [5, 5] false, none⟩).1 "/c" "u"
          ⟨HttpResult.failure, none⟩).2.2
        = Outcome.ok (fastaPath "/c")) :=
  ⟨⟨rfl,
    ((c4_idempotence ⟨[(fastaPath "/c", FileData.bytes 7)], []⟩ "/c" "u").1
      ⟨HttpResult.failure, none⟩
      ⟨HttpResult.response 200 (some 10) [5, 5] false, none⟩ rfl).2⟩,
   ⟨by decide,
    ((c4_idempotence ⟨[], []⟩ "/c" "u").2
      ⟨HttpResult.response 200 (some 10) [5, 5] false, none⟩
      ⟨HttpResult.failure, none⟩ ⟨HttpResult.failure, none⟩
      (fastaPath "/c") (by decide)).1⟩⟩

/-! ## Claim C6 -/

/-- Claim C6: every successful run that performs a download writes a
config file that is a JSON object with exactly the keys
`hla_fasta_path` (the target path), `download_url` (the request URL) and
`file_size_mb`, serialized with 2-space indentation, where
`file_size_mb` equals the byte size of the written target file divided
by 1048576 (exactly, in the rational-number model). -/
theorem c6_config_record_contents (fs0 : FS) (cd url : String) (ctx : DlCtx)
    (P : String)
    (hnf : fs0.existsF (fastaPath cd) = false)
    (hok : (download_hla_fasta fs0 cd url ctx).2.2 = Outcome.ok P) :
    ∃ n : Nat,
      (download_hla_fasta fs0 cd url ctx).1.read (fastaPath cd)
        = some (FileData.bytes n) ∧
      (download_hla_fasta fs0 cd url ctx).1.read (configPath cd)
        = some (FileData.json
            [("hla_fasta_path", JVal.jstr (fastaPath cd)),
             ("download_url", JVal.jstr url),
             ("file_size_mb", JVal.jnum ((n : ℚ) / MB))] 2) := by
  obtain ⟨http, wf⟩ := ctx
  cases http with
  | failure =>
    rw [download_net_fail fs0 cd url wf hnf] at hok
    simp at hok
  | response st clen chunks se =>
    by_cases hst : 400 ≤ st
    · rw [download_status_fail fs0 cd url st clen chunks se wf hnf hst] at hok
      simp at hok
    · by_cases hlok : (chunkLoop (fastaPath cd) (clen.getD 0) wf chunks
          ((fs0.mkdirp cd).write (fastaPath cd) (FileData.bytes 0)) 0 0).ok = true
      · cases se with
        | true =>
          rw [download_stream_fail fs0 cd url st clen chunks wf hnf hst hlok] at hok
          simp at hok
        | false =>
          rw [download_success fs0 cd url st clen chunks wf hnf hst hlok] at hok ⊢
          have hb := chunkLoop_fasta_bytes (fastaPath cd) (clen.getD 0) wf chunks
            ((fs0.mkdirp cd).write (fastaPath cd) (FileData.bytes 0)) 0 0
            (FS.read_write_self _ _ _)
          have hsz : (chunkLoop (fastaPath cd) (clen.getD 0) wf chunks
              ((fs0.mkdirp cd).write (fastaPath cd) (FileData.bytes 0)) 0 0).fs.fileSize
              (fastaPath cd)
            = (chunkLoop (fastaPath cd) (clen.getD 0) wf chunks
              ((fs0.mkdirp cd).write (fastaPath cd) (FileData.bytes 0)) 0 0).downloaded := by
            simp [FS.fileSize, hb]
          refine ⟨(chunkLoop (fastaPath cd) (clen.getD 0) wf chunks
            ((fs0.mkdirp cd).write (fastaPath cd) (FileData.bytes 0)) 0 0).downloaded,
            ?_, ?_⟩
          · rw [FS.read_write_ne _ _ _ _ (fastaPath_ne_configPath cd)]
            exact hb
          · rw [FS.read_write_self, hsz]
      · have hfail : (chunkLoop (fastaPath cd) (clen.getD 0) wf chunks
            ((fs0.mkdirp cd).write (fastaPath cd) (FileData.bytes 0)) 0 0).ok = false := by
          cases hb : (chunkLoop (fastaPath cd) (clen.getD 0) wf chunks
            ((fs0.mkdirp cd).write (fastaPath cd) (FileData.bytes 0)) 0 0).ok <;> simp_all
        rw [download_write_fail fs0 cd url st clen chunks se wf hnf hst hfail] at hok
        simp at hok

/-- Witness for C6: a ten-byte download records file_size_mb equal to
10 / 1048576. -/
theorem c6_config_record_contents_witness :
    (FS.existsF ⟨[], []⟩ (fastaPath "/c") = false ∧
      (download_hla_fasta ⟨[], []⟩ "/c" "u"
        ⟨HttpResult.response 200 (some 10) [5, 5] false, none⟩).2.2
        = Outcome.ok (fastaPath "/c")) ∧
    (∃ n : Nat,
      (download_hla_fasta ⟨[], []⟩ "/c" "u"
        ⟨HttpResult.response 200 (some 10) [5, 5] false, none⟩).1.read (fastaPath "/c")
        = some (FileData.bytes n) ∧
      (download_hla_fasta ⟨[], []⟩ "/c" "u"
        ⟨HttpResult.response 200 (some 10) [5, 5] false, none⟩).1.read (configPath "/c")
        = some (FileData.json
            [("hla_fasta_path", JVal.jstr (fastaPath "/c")),
             ("download_url", JVal.jstr "u"),
             ("file_size_mb", JVal.jnum ((n : ℚ) / MB))] 2)) :=
  ⟨⟨rfl, by decide⟩,
    c6_config_record_contents ⟨[], []⟩ "/c" "u"
      ⟨HttpResult.response 200 (some 10) [5, 5] false, none⟩
      (fastaPath "/c") rfl (by decide)⟩

/-! ## Claim C8 -/

theorem numProgress_append (l1 l2 : List Msg) :
    numProgress (l1 ++ l2) = numProgress l1 + numProgress l2 := by
  simp [numProgress, List.countP_append]

/-- Claim C8 as stated is false: with no `content-length` header and a
five-byte body, the run prints the banner, the completion report and the
config report, but no per-chunk line at all — in particular it never
displays the raw number of downloaded bytes. -/
theorem c8_counterexample :
    (download_hla_fasta ⟨[], []⟩ "/c" "u"
        ⟨HttpResult.response 200 none [5] false, none⟩).2.1
      = [Msg.downloadingFrom "u" (fastaPath "/c"), Msg.complete (5 / MB),
         Msg.configSaved (configPath "/c")] ∧
    numProgress (download_hla_fasta ⟨[], []⟩ "/c" "u"
        ⟨HttpResult.response 200 none [5] false, none⟩).2.1 = 0 ∧
    (download_hla_fasta ⟨[], []⟩ "/c" "u"
        ⟨HttpResult.response 200 none [5] false, none⟩).1.fileSize (fastaPath "/c")
      = 5 := by
  refine ⟨by rfl, by rfl, by rfl⟩

/-- Claim C8 (amended): when the `content-length` header is present
with a positive value, the operation prints one percentage-progress
line per non-empty chunk; when the header is absent (or zero), it
prints no per-chunk output at all — no raw byte count is displayed. -/
theorem c8_progress_reporting (fs0 : FS) (cd url : String) (st : Nat)
    (clen : Option Nat) (chunks : List Nat)
    (hnf : fs0.existsF (fastaPath cd) = false) (hst : ¬ 400 ≤ st) :
    (∃ mb : ℚ,
      (download_hla_fasta fs0 cd url
          ⟨HttpResult.response st clen chunks false, none⟩).2.1
        = [Msg.downloadingFrom url (fastaPath cd)]
          ++ progressOutput (clen.getD 0) 0 chunks
          ++ (if 0 < clen.getD 0 then [Msg.newline] else [])
          ++ [Msg.complete mb, Msg.configSaved (configPath cd)]) ∧
    (∀ n : Nat, clen = some n → 0 < n →
      numProgress (download_hla_fasta fs0 cd url
          ⟨HttpResult.response st clen chunks false, none⟩).2.1
        = (chunks.filter (fun c => c != 0)).length) ∧
    (clen = none →
      numProgress (download_hla_fasta fs0 cd url
          ⟨HttpResult.response st clen chunks false, none⟩).2.1 = 0) := by
  have hs := download_success fs0 cd url st clen chunks none hnf hst
    (chunkLoop_ok_of_failAt_none _ _ _ _ _ _)
  have hmsg : (download_hla_fasta fs0 cd url
      ⟨HttpResult.response st clen chunks false, none⟩).2.1
      = [Msg.downloadingFrom url (fastaPath cd)]
        ++ progressOutput (clen.getD 0) 0 chunks
        ++ (if 0 < clen.getD 0 then [Msg.newline] else [])
        ++ [Msg.complete
              (((chunkLoop (fastaPath cd) (clen.getD 0) none chunks
                  ((fs0.mkdirp cd).write (fastaPath cd) (FileData.bytes 0)) 0
                  0).fs.fileSize (fastaPath cd) : ℚ) / MB),
            Msg.configSaved (configPath cd)] := by
    rw [hs]
    simp [chunkLoop_msgs_of_failAt_none]
  refine ⟨⟨_, hmsg⟩, ?_, ?_⟩
  · intro n hcl hn
    subst hcl
    rw [hmsg]
    simp only [Option.getD]
    rw [numProgress_append, numProgress_append, numProgress_append]
    have h0 : numProgress [Msg.downloadingFrom url (fastaPath cd)] = 0 := rfl
    have h1 : numProgress (if 0 < n then [Msg.newline] else []) = 0 := by
      split <;> rfl
    have h2 : numProgress [Msg.complete
        (((chunkLoop (fastaPath cd) n none chunks
            ((fs0.mkdirp cd).write (fastaPath cd) (FileData.bytes 0)) 0
            0).fs.fileSize (fastaPath cd) : ℚ) / MB),
        Msg.configSaved (configPath cd)] = 0 := rfl
    rw [h0, h1, h2, numProgress_progressOutput n hn chunks 0]
    omega
  · intro hcl
    subst hcl
    rw [hmsg]
    simp only [Option.getD]
    rw [progressOutput_total_zero]
    rfl

/-- Witness for C8 (amended): a two-chunk download with a known total
prints exactly two percentage lines; the same body without the header
prints none. -/
theorem c8_progress_reporting_witness :
    (FS.existsF ⟨[], []⟩ (fastaPath "/c") = false ∧ ¬ (400 ≤ 200)) ∧
    numProgress (download_hla_fasta ⟨[], []⟩ "/c" "u"
        ⟨HttpResult.response 200 (some 10) [5, 5] false, none⟩).2.1
      = ([5, 5].filter (fun c => c != 0)).length :=
  ⟨⟨rfl, by decide⟩,
    (c8_progress_reporting ⟨[], []⟩ "/c" "u" 200 (some 10) [5, 5] rfl
      (by decide)).2.1 10 rfl (by decide)⟩

/-! ## Claim C2 -/

/-- Claim C2 as stated is false: a filesystem write error while writing
the second chunk (an `OSError`, not a transport failure) aborts the
process, but the partially written five-byte target file is NOT
deleted — it is still on disk afterwards. -/
theorem c2_counterexample :
    (download_hla_fasta ⟨[], []⟩ "/c" "u"
        ⟨HttpResult.response 200 (some 10) [5, 5] false, some 1⟩).2.2
      = Outcome.uncaught ∧
    (download_hla_fasta ⟨[], []⟩ "/c" "u"
        ⟨HttpResult.response 200 (some 10) [5, 5] false, some 1⟩).1.read
        (fastaPath "/c")
      = some (FileData.bytes 5) := by
  refine ⟨by rfl, by rfl⟩

/-- Claim C2 (amended): every run either succeeds — returning a path
that exists afterwards — or terminates abnormally (`sys.exit 1` on
transport failures, an uncaught exception otherwise) with the config
record neither created nor updated; the partial target file is deleted
on transport failures but may survive a filesystem write error.
Consequently the invariant «a config record at the cache directory
implies the target file exists there» is preserved by every run. -/
theorem c2_success_or_abort (fs0 : FS) (cd url : String) (ctx : DlCtx) :
    ((∃ P, (download_hla_fasta fs0 cd url ctx).2.2 = Outcome.ok P ∧
        ((download_hla_fasta fs0 cd url ctx).1.read P).isSome = true) ∨
      (((download_hla_fasta fs0 cd url ctx).2.2 = Outcome.exited 1 ∨
        (download_hla_fasta fs0 cd url ctx).2.2 = Outcome.uncaught) ∧
       (download_hla_fasta fs0 cd url ctx).1.read (configPath cd)
         = fs0.read (configPath cd))) ∧
    (configConsistent fs0 cd →
      configConsistent (download_hla_fasta fs0 cd url ctx).1 cd) := by
  obtain ⟨http, wf⟩ := ctx
  by_cases hex : fs0.existsF (fastaPath cd) = true
  · rw [download_early fs0 cd url ⟨http, wf⟩ hex]
    constructor
    · left
      refine ⟨fastaPath cd, rfl, ?_⟩
      unfold FS.existsF at hex
      simp only [FS.read_mkdirp]
      exact hex
    · intro hc
      unfold configConsistent at hc ⊢
      simp only [FS.read_mkdirp]
      exact hc
  · have hnf : fs0.existsF (fastaPath cd) = false := by
      cases hb : fs0.existsF (fastaPath cd) <;> simp_all
    cases http with
    | failure =>
      rw [download_net_fail fs0 cd url wf hnf]
      constructor
      · right
        exact ⟨Or.inl rfl, by simp [FS.read_mkdirp]⟩
      · intro hc
        unfold configConsistent at hc ⊢
        simp only [FS.read_mkdirp]
        exact hc
    | response st clen chunks se =>
      by_cases hst : 400 ≤ st
      · rw [download_status_fail fs0 cd url st clen chunks se wf hnf hst]
        constructor
        · right
          exact ⟨Or.inl rfl, by simp [FS.read_mkdirp]⟩
        · intro hc
          unfold configConsistent at hc ⊢
          simp only [FS.read_mkdirp]
          exact hc
      · have hb := chunkLoop_fasta_bytes (fastaPath cd) (clen.getD 0) wf chunks
          ((fs0.mkdirp cd).write (fastaPath cd) (FileData.bytes 0)) 0 0
          (FS.read_write_self _ _ _)
        have hcfg : (chunkLoop (fastaPath cd) (clen.getD 0) wf chunks
            ((fs0.mkdirp cd).write (fastaPath cd) (FileData.bytes 0)) 0 0).fs.read
            (configPath cd) = fs0.read (configPath cd) := by
          rw [chunkLoop_read_ne _ _ _ _ (Ne.symm (fastaPath_ne_configPath cd)),
            FS.read_write_ne _ _ _ _ (Ne.symm (fastaPath_ne_configPath cd)),
            FS.read_mkdirp]
        by_cases hlok : (chunkLoop (fastaPath cd) (clen.getD 0) wf chunks
            ((fs0.mkdirp cd).write (fastaPath cd) (FileData.bytes 0)) 0 0).ok = true
        · cases se with
          | true =>
            rw [download_stream_fail fs0 cd url st clen chunks wf hnf hst hlok]
            have hcfg2 : ((chunkLoop (fastaPath cd) (clen.getD 0) wf chunks
                ((fs0.mkdirp cd).write (fastaPath cd) (FileData.bytes 0)) 0
                0).fs.unlink (fastaPath cd)).read (configPath cd)
                = fs0.read (configPath cd) := by
              rw [FS.read_unlink_ne _ _ _ (Ne.symm (fastaPath_ne_configPath cd)), hcfg]
            constructor
            · right
              exact ⟨Or.inl rfl, hcfg2⟩
            · intro hc
              unfold configConsistent at hc ⊢
              intro hsome
              exfalso
              rw [hcfg2] at hsome
              have h2 := hc hsome
              rw [FS.read_eq_none fs0 _ hnf] at h2
              simp at h2
          | false =>
            rw [download_success fs0 cd url st clen chunks wf hnf hst hlok]
            have hfex0 : ((chunkLoop (fastaPath cd) (clen.getD 0) wf chunks
                ((fs0.mkdirp cd).write (fastaPath cd) (FileData.bytes 0)) 0
                0).fs.read (fastaPath cd)).isSome = true := by
              rw [hb]
              rfl
            constructor
            · left
              refine ⟨fastaPath cd, rfl, ?_⟩
              rw [FS.read_write_ne _ _ _ _ (fastaPath_ne_configPath cd)]
              exact hfex0
            · intro hc
              unfold configConsistent
              intro hsome
              rw [FS.read_write_ne _ _ _ _ (fastaPath_ne_configPath cd)]
              exact hfex0
        · have hfail : (chunkLoop (fastaPath cd) (clen.getD 0) wf chunks
              ((fs0.mkdirp cd).write (fastaPath cd) (FileData.bytes 0)) 0 0).ok
              = false := by
            cases hb2 : (chunkLoop (fastaPath cd) (clen.getD 0) wf chunks
              ((fs0.mkdirp cd).write (fastaPath cd) (FileData.bytes 0)) 0 0).ok <;>
              simp_all
          rw [download_write_fail fs0 cd url st clen chunks se wf hnf hst hfail]
          constructor
          · right
            exact ⟨Or.inr rfl, hcfg⟩
          · intro hc
            unfold configConsistent
            intro hsome
            rw [hb]
            rfl

/-- Witness for C2 (amended): the invariant-preservation implication
discharged on a concrete mid-stream transport failure starting from a
consistent filesystem. -/
theorem c2_success_or_abort_witness :
    ((download_hla_fasta ⟨[], []⟩ "/c" "u"
        ⟨HttpResult.response 200 (some 10) [5] true, none⟩).2.2 = Outcome.exited 1 ∨
      (download_hla_fasta ⟨[], []⟩ "/c" "u"
        ⟨HttpResult.response 200 (some 10) [5] true, none⟩).2.2 = Outcome.uncaught) ∧
    configConsistent (download_hla_fasta ⟨[], []⟩ "/c" "u"
      ⟨HttpResult.response 200 (some 10) [5] true, none⟩).1 "/c" :=
  ⟨Or.inl (by decide),
    (c2_success_or_abort ⟨[], []⟩ "/c" "u"
      ⟨HttpResult.response 200 (some 10) [5] true, none⟩).2
      (fun h => absurd h (by decide))⟩

end HlaSetup
